import Mathlib

/-!
# HAD-email-monitor: a shallow embedding of `email-monitor.go`

The Go program is a sequential batch evaluator.  Its pure helpers become Lean functions,
run-time panics (index out of range, nil dereference) become `Except.error`, the process-wide
map `serverMap` becomes an explicit state component, and everything the program reads from the
outside world (DNS answers, the probe executable, the HTTPS fetch, the record store, the clock)
is a field of an environment record that the theorems quantify over.

Go strings are modelled by `String`.  The only separators and markers the program uses are
ASCII, and UTF-8 is self-synchronising, so splitting and substring search on characters agree
with Go's byte-level `strings.Split` / `strings.Contains` on valid UTF-8 text.
-/

namespace EmailMonitor

/-! ## Run-time failures -/

/-- Go run-time panics that the program can raise. -/
inductive Panic where
  /-- Slice index out of range, such as `retLine[1]` on a one-element slice. -/
  | indexOutOfRange (index len : Nat)
  /-- Field access through a nil pointer, such as `resp.Answer` with `resp == nil`. -/
  | nilDereference
  /-- An explicit `panic(...)` call in the source. -/
  | explicit (msg : String)
  deriving DecidableEq, Repr

deriving instance DecidableEq for Except

/-- Go slice indexing `xs[i]`: the element, or an index-out-of-range panic. -/
def index {α : Type} (xs : List α) (i : Nat) : Except Panic α :=
  match xs[i]? with
  | some x => .ok x
  | none => .error (.indexOutOfRange i xs.length)

/-! ## `strings` helpers -/

/-- Character-level splitting: the pieces of `cs` between occurrences of `sep`. -/
def splitChars (sep : Char) : List Char → List (List Char)
  | [] => [[]]
  | c :: cs =>
    if c = sep then [] :: splitChars sep cs
    else
      match splitChars sep cs with
      | [] => [[c]]
      | p :: ps => (c :: p) :: ps

/-- Go `strings.Split(s, sep)` for a one-character separator: all substrings of `s` between
occurrences of `sep`; the result always has (number of separators + 1) elements. -/
def Split (s : String) (sep : Char) : List String :=
  (splitChars sep s.data).map String.mk

/-- Go `strings.Join(elems, sep)`. -/
def Join (elems : List String) (sep : String) : String :=
  sep.intercalate elems

/-- Substring test on character lists: `sub` occurs contiguously in `s`. -/
def containsChars (sub : List Char) : List Char → Bool
  | [] => sub.isEmpty
  | c :: cs => sub.isPrefixOf (c :: cs) || containsChars sub cs

/-- Go `strings.Contains(s, substr)` (case-sensitive). -/
def Contains (s substr : String) : Bool :=
  containsChars substr.data s.data

/-! ## Organisational-domain key -/

/-- The Go function `getSecondLevel` (lines 179-189). -/
def getSecondLevel (mailSrv : String) : Except Panic String :=
  let levels := Split mailSrv '.'
  if levels.length < 3 then
    .ok mailSrv
  else do
    let a ← index levels (levels.length - 3)
    let b ← index levels (levels.length - 2)
    .ok (a ++ "." ++ b)

/-! ## DNS data model and the query primitive -/

/-- The record types the program asks for (`dns.TypeTXT`, `dns.TypeMX`, `dns.TypeTLSA`). -/
inductive QType where
  | TXT
  | MX
  | TLSA
  deriving DecidableEq, Repr

/-- A resource record of an answer section, as far as the type switches of the program tell
records apart: `*dns.TXT`, `*dns.MX`, `*dns.TLSA`, and every other concrete record type
(identified by its numeric type, 5 for CNAME). -/
inductive RR where
  | TXT (Txt : List String)
  | MX (Preference : Nat) (Mx : String)
  | TLSA (Usage Selector MatchingType : Nat) (Certificate : String)
  | other (rrtype : Nat)
  deriving DecidableEq, Repr

/-- The part of `dns.Msg` the program reads. -/
structure Msg where
  Answer : List RR
  deriving DecidableEq, Repr

/-- A Go `(*dns.Msg, error)` pair: each component may be nil (`none`). -/
abbrev QueryResult := Option Msg × Option String

/-- The resolver configuration (`conf`), the client (`myRes`) and the network behind it.
`Exchange qname qtype validate address` is what `myRes.Exchange` returns for the query built by
`doQuery`; `Fqdn` is the library function `dns.Fqdn`. -/
structure Resolver where
  Servers : List String
  Port : String
  Fqdn : String → String
  Exchange : String → QType → Bool → String → QueryResult

/-- The Go function `doQuery` (lines 98-114): the loop body returns in its first iteration, so
only the first configured server is ever asked. -/
def doQuery (R : Resolver) (qname : String) (qtype : QType) (validate : Bool) : QueryResult :=
  match R.Servers with
  | [] => (none, some "No name server to answer the question")
  | server :: _ =>
    match R.Exchange (R.Fqdn qname) qtype validate (server ++ ":" ++ R.Port) with
    | (r, err) => if err.isSome || r.isNone then (none, err) else (r, err)

/-- The answer loop of `getPolicy` (lines 124-132). -/
def getPolicyLoop (idStr : String) : List RR → String
  | [] => "none"
  | RR.TXT txt :: rest =>
    let rdata := Join txt " "
    if Contains rdata idStr then rdata else getPolicyLoop idStr rest
  | _ :: rest => getPolicyLoop idStr rest

/-- The Go function `getPolicy` (lines 116-134). -/
def getPolicy (R : Resolver) (qname idStr : String) : String :=
  match doQuery R qname QType.TXT false with
  | (resp, err) =>
    if err.isSome || resp.isNone then "none"
    else
      match resp with
      | none => "none"
      | some msg => getPolicyLoop idStr msg.Answer

/-- The answer loop of `getMXList` (lines 169-174): append the `Mx` of each `*dns.MX` answer. -/
def getMXListLoop : List RR → List String → List String
  | [], exchanges => exchanges
  | RR.MX _ mx :: rest, exchanges => getMXListLoop rest (exchanges ++ [mx])
  | _ :: rest, exchanges => getMXListLoop rest exchanges

/-- The Go function `getMXList` (lines 157-177). -/
def getMXList (R : Resolver) (qname : String) : List String :=
  match doQuery R qname QType.MX false with
  | (resp, err) =>
    if err.isSome || resp.isNone then ["null"]
    else
      match resp with
      | none => ["null"]
      | some msg =>
        if msg.Answer.length = 0 then [] ++ ["none"]
        else getMXListLoop msg.Answer []

/-! ## The MTA-STS document fetch -/

/-- What `http.Get` and the line scanner can do in `getJson`. -/
inductive HttpResult where
  /-- The request succeeded (`err == nil`): the body lines, and whether `scanner.Err()` is
  non-nil afterwards. -/
  | ok (lines : List String) (scanErr : Bool)
  /-- The request failed (`err != nil`); `respNil` tells whether the returned response is nil. -/
  | failed (respNil : Bool)
  deriving DecidableEq, Repr

/-- The Go function `getJson` (lines 136-155).  On a failed request the function reaches
`defer resp.Body.Close()`, which evaluates `resp.Body` at once. -/
def getJson (httpGet : String → HttpResult) (domain : String) : Except Panic (List String) :=
  match httpGet ("https://mta-sts." ++ domain ++ "/.well-known/mta-sts.txt") with
  | .ok lines scanErr => if scanErr then .ok [] else .ok lines
  | .failed respNil => if respNil then .error .nilDereference else .ok []

/-! ## Capability cache and prober -/

/-- The Go struct `serverStatus` (lines 78-83). -/
structure serverStatus where
  starttls : Bool
  blocked : Bool
  requiretls : Bool
  tlsCert : String
  deriving DecidableEq, Repr

/-- The Go map type `map[string]serverStatus`: a lookup yields the entry and `found`. -/
abbrev ServerMap := String → Option serverStatus

/-- The empty map of `make(map[string]serverStatus)`. -/
def ServerMap.empty : ServerMap := fun _ => none

/-- Map assignment `m[key] = entry`. -/
def ServerMap.insert (m : ServerMap) (key : String) (entry : serverStatus) : ServerMap :=
  fun k => if k = key then some entry else m k

/-- How one run of the external executable `./getUTF8` ends, seen from the `select` of
`getSMTPOptions`. -/
inductive ProbeOutcome where
  /-- The 10 second timer fires before the reader goroutine reports. -/
  | timeout
  /-- The reader goroutine reports within the bound: the captured standard output and the
  error of `cmd.Wait()`, if any. -/
  | done (stdout : String) (waitErr : Option String)
  /-- Reading the pipe fails and the reader goroutine panics. -/
  | readFailed (msg : String)
  deriving DecidableEq, Repr

/-- The mutable state of the program that the claims are about: the process-wide cache and the
log of hostnames for which the probe executable has been started, oldest first. -/
structure State where
  serverMap : ServerMap
  probes : List String

/-- The state at program start. -/
def State.init : State := { serverMap := ServerMap.empty, probes := [] }

/-- The probe executable as the program sees it: the outcome of the run started for a
hostname, given how many runs were started before it. -/
abbrev Prober := Nat → String → ProbeOutcome

/-- The Go function `getSMTPOptions` (lines 191-262). -/
def getSMTPOptions (probe : Prober) (st : State) (testExch : String) :
    Except Panic ((Bool × Bool × Bool × String) × State) := do
  let key ← getSecondLevel testExch
  match st.serverMap key with
  | none =>
    let st1 : State := { st with probes := st.probes ++ [testExch] }
    match probe st.probes.length testExch with
    | .timeout => .ok ((false, false, false, ""), st1)
    | .readFailed msg => .error (.explicit ("buf.Read(stdout) error: " ++ msg))
    | .done value _ =>
      let retLine := Split value ','
      let r1 ← index retLine 1
      let starttls := decide (r1 = "1")
      let r2 ← index retLine 2
      let requiretls := decide (r2 = "1")
      let r3 ← index retLine 3
      let blocktls := decide (r3 = "1")
      let srvCert ← index retLine 4
      let newEntry : serverStatus :=
        { starttls := starttls, requiretls := requiretls, blocked := blocktls, tlsCert := srvCert }
      let key2 ← getSecondLevel testExch
      .ok ((starttls, requiretls, blocktls, srvCert),
        { st1 with serverMap := st1.serverMap.insert key2 newEntry })
  | some srvRec =>
    .ok ((srvRec.starttls, srvRec.requiretls, srvRec.blocked, srvRec.tlsCert), st)

/-! ## Posture record and the per-domain loop body of `main` -/

/-- The Go struct `zoneEmailPosture` (lines 58-76). -/
structure zoneEmailPosture where
  Id : String
  Zname : String
  Agency : String
  Time : Int
  Spf : String
  DkimSelect : String
  Dkim : String
  Dmarc : String
  Dane : Bool
  Mx : List String
  SmtpSts : String
  StsPolicy : List String
  TlsReport : String
  StartTLS : Bool
  RequireTLS : Bool
  BlockTLS : Bool
  Cert : String
  deriving DecidableEq, Repr

/-- The zero value of `var zoneData zoneEmailPosture`. -/
def zoneEmailPosture.zero : zoneEmailPosture :=
  { Id := "", Zname := "", Agency := "", Time := 0, Spf := "", DkimSelect := "", Dkim := "",
    Dmarc := "", Dane := false, Mx := [], SmtpSts := "", StsPolicy := [], TlsReport := "",
    StartTLS := false, RequireTLS := false, BlockTLS := false, Cert := "" }

/-- Everything one iteration of the scanner loop reads from outside the program. -/
structure Env where
  resolver : Resolver
  httpGet : String → HttpResult
  probe : Prober
  /-- The lookup `cur.Find(bson.M("zname": zonename)).One(&zoneData)`: the stored record, or
  `none` when the call returns an error. -/
  find : String → Option zoneEmailPosture
  /-- The error of `cur.Upsert` (first argument `true`) or `cur.Update` (`false`), if any. -/
  write : Bool → zoneEmailPosture → Option String
  /-- The value of `time.Now().Unix()`. -/
  now : Int
  /-- The global `fulltest` set by `parseConfigFile`. -/
  fulltest : String

/-- The inner loop of the DANE check (lines 385-390): any `*dns.TLSA` answer sets the flag. -/
def daneAnswers (dane : Bool) : List RR → Bool
  | [] => dane
  | RR.TLSA _ _ _ _ :: rest => daneAnswers true rest
  | _ :: rest => daneAnswers dane rest

/-- The loop over the MX hosts of the DANE check (lines 381-393), read as
`for _, mx := range zoneData.Mx`.  The guard is `err == nil || resp != nil`, so a result with
both components nil enters the body and dereferences `resp`. -/
def daneLoop (R : Resolver) : Bool → List String → Except Panic Bool
  | dane, [] => .ok dane
  | dane, mx :: rest =>
    match doQuery R mx QType.TLSA false with
    | (none, some _) => daneLoop R dane rest
    | (none, none) => .error .nilDereference
    | (some resp, _) =>
      if resp.Answer.length > 0 then daneLoop R (daneAnswers dane resp.Answer) rest
      else daneLoop R dane rest

/-- What one iteration hands to the store, and the program state after it. -/
structure StepResult where
  /-- The record passed to `cur.Upsert` or `cur.Update`. -/
  written : zoneEmailPosture
  /-- Whether `cur.Upsert` (new record) or `cur.Update` (existing record) is called. -/
  isNew : Bool
  state : State

/-- One iteration of the scanner loop of `main` (lines 353-415) on the input line `text`. -/
def mainLoopBody (env : Env) (st : State) (text : String) : Except Panic StepResult := do
  let line := Split text ','
  let line0 ← index line 0
  let zonename := env.resolver.Fqdn line0
  let (isNew, zoneData) ←
    match env.find zonename with
    | some prior => (.ok (false, prior) : Except Panic (Bool × zoneEmailPosture))
    | none => do
      let line2 ← index line 2
      .ok (true, { zoneEmailPosture.zero with Zname := zonename, Agency := line2 })
  let zoneData := { zoneData with Time := env.now }
  let zoneData := { zoneData with Spf := getPolicy env.resolver zonename "v=spf1" }
  let zoneData := { zoneData with Dmarc := getPolicy env.resolver ("_dmarc." ++ zonename) "v=DMARC1;" }
  let zoneData :=
    { zoneData with SmtpSts := getPolicy env.resolver ("_mta-sts." ++ zonename) "v=STSv1;" }
  let zoneData ←
    if zoneData.SmtpSts ≠ "none" then do
      let policy ← getJson env.httpGet line0
      (.ok { zoneData with StsPolicy := policy } : Except Panic zoneEmailPosture)
    else .ok zoneData
  let zoneData :=
    { zoneData with TlsReport := getPolicy env.resolver ("_smtp-tlsrpt." ++ zonename) "v=TLSRPTv1;" }
  let zoneData := { zoneData with Mx := getMXList env.resolver zonename }
  let mx0 ← index zoneData.Mx 0
  let zoneData ←
    if mx0 ≠ "none" then do
      let dane ← daneLoop env.resolver zoneData.Dane zoneData.Mx
      (.ok { zoneData with Dane := dane } : Except Panic zoneEmailPosture)
    else .ok zoneData
  let (zoneData, st) ←
    if env.fulltest = "yes" then do
      let mx0 ← index zoneData.Mx 0
      if mx0 ≠ "none" then do
        let ((starttls, requiretls, blocktls, cert), st1) ← getSMTPOptions env.probe st mx0
        (.ok ({ zoneData with StartTLS := starttls, RequireTLS := requiretls,
                              BlockTLS := blocktls, Cert := cert }, st1) :
          Except Panic (zoneEmailPosture × State))
      else .ok (zoneData, st)
    else .ok (zoneData, st)
  if isNew then
    match env.write true zoneData with
    | some msg => .error (.explicit msg)
    | none => .ok { written := zoneData, isNew := true, state := st }
  else
    let zoneData := { zoneData with Id := "" }
    match env.write false zoneData with
    | some msg => .error (.explicit msg)
    | none => .ok { written := zoneData, isNew := false, state := st }

/-! ## Concrete inputs used by the examples and counterexamples -/

/-- A concrete `dns.Fqdn`: a name that does not already end in a dot gets one appended. -/
def exampleFqdn (s : String) : String :=
  if s.data.getLast? = some '.' then s else s ++ "."

/-- A resolver with one configured server that answers from a table. -/
def exampleResolver (table : String → QType → QueryResult) : Resolver :=
  { Servers := ["192.0.2.53"], Port := "53", Fqdn := exampleFqdn,
    Exchange := fun qname qtype _ _ => table qname qtype }

/-- A state whose cache holds one entry, under the key `mailprovider.com`. -/
def cachedState : State :=
  { serverMap := ServerMap.empty.insert "mailprovider.com"
      { starttls := true, blocked := false, requiretls := false, tlsCert := "SHA256:abcd" },
    probes := ["smtp.mailprovider.com."] }

/-- A probe executable that never finishes within the bound. -/
def hangingProbe : Prober := fun _ _ => ProbeOutcome.timeout

/-- A probe executable whose first run prints the record of scenario C and whose later runs
hang. -/
def scenarioProbe : Prober := fun n _ =>
  if n = 0 then ProbeOutcome.done "x,1,0,0,SHA256:abcd" none else ProbeOutcome.timeout

/-- A resolver whose zone `example.gov.` publishes the single TXT record `none`. -/
def noneTxtResolver : Resolver :=
  exampleResolver fun qname qtype =>
    if qname = "example.gov." ∧ qtype = QType.TXT then (some ⟨[RR.TXT ["none"]]⟩, none)
    else (some ⟨[]⟩, none)

/-- A resolver whose zone `example.gov.` publishes an SPF record split in two segments, after
an unrelated TXT record and alongside a CNAME. -/
def spfResolver : Resolver :=
  exampleResolver fun qname qtype =>
    if qname = "example.gov." ∧ qtype = QType.TXT then
      (some ⟨[RR.other 5, RR.TXT ["site-verification=abc"],
              RR.TXT ["v=spf1 include:_spf.example.gov", "-all"], RR.TXT ["v=spf1 -all"]]⟩, none)
    else (some ⟨[]⟩, none)

/-- A resolver for which `alias.example.gov.` is an alias: the MX query succeeds and its
answer section holds only the CNAME record. -/
def aliasResolver : Resolver :=
  exampleResolver fun qname qtype =>
    if qname = "alias.example.gov." ∧ qtype = QType.MX then (some ⟨[RR.other 5]⟩, none)
    else (some ⟨[]⟩, none)

/-- An environment around `aliasResolver`, with an empty store and full test off. -/
def aliasEnv : Env :=
  { resolver := aliasResolver, httpGet := fun _ => HttpResult.failed false,
    probe := hangingProbe, find := fun _ => none, write := fun _ _ => none,
    now := 1700000000, fulltest := "no" }

/-- A resolver for `example.gov.` with one mail exchange, `mail.example.gov.`, and no TLSA
(nor TXT) records anywhere. -/
def oneMxResolver : Resolver :=
  exampleResolver fun qname qtype =>
    if qname = "example.gov." ∧ qtype = QType.MX then
      (some ⟨[RR.MX 10 "mail.example.gov."]⟩, none)
    else (some ⟨[]⟩, none)

/-- The record stored for `example.gov.` by an earlier run, when TLSA records were published. -/
def priorRecord : zoneEmailPosture :=
  { zoneEmailPosture.zero with
    Id := "5f1e7c", Zname := "example.gov.", Agency := "Example Agency", Time := 1600000000,
    Spf := "none", Dmarc := "none", SmtpSts := "none", TlsReport := "none", Dane := true,
    Mx := ["mail.example.gov."] }

/-- An environment around `oneMxResolver` whose store holds `priorRecord`. -/
def staleDaneEnv : Env :=
  { resolver := oneMxResolver, httpGet := fun _ => HttpResult.failed false,
    probe := hangingProbe,
    find := fun zname => if zname = "example.gov." then some priorRecord else none,
    write := fun _ _ => none, now := 1700000000, fulltest := "no" }

/-- The same environment with an empty store. -/
def freshDaneEnv : Env :=
  { staleDaneEnv with find := fun _ => none }

/-- An environment in which every DNS query fails, with full test on and an empty store. -/
def failingDnsEnv : Env :=
  { resolver := exampleResolver fun _ _ => (none, some "i/o timeout"),
    httpGet := fun _ => HttpResult.failed false, probe := hangingProbe,
    find := fun _ => none, write := fun _ _ => none, now := 1700000000, fulltest := "yes" }

/-! ## Vocabulary of the specification -/

/-- The space-joined text segments of a TXT answer; other record types have none. -/
def joinedText : RR → Option String
  | RR.TXT txt => some (Join txt " ")
  | _ => none

/-- The joined strings of the TXT answers of an answer section, in answer order. -/
def txtStrings (answers : List RR) : List String :=
  answers.filterMap joinedText

/-- The first joined TXT string, in answer order, that contains the marker. -/
def firstMatch (marker : String) (answers : List RR) : Option String :=
  (txtStrings answers).find? fun s => Contains s marker

/-- The mail-exchange hostname of an MX answer; other record types have none. -/
def mxHost : RR → Option String
  | RR.MX _ mx => some mx
  | _ => none

/-- Whether an answer section holds at least one TLSA record. -/
def hasTLSA (answers : List RR) : Bool :=
  answers.any fun rr => match rr with
    | RR.TLSA _ _ _ _ => true
    | _ => false

/-- Whether the TLSA query for a mail exchange yields a response with a TLSA answer. -/
def mxHasTLSA (R : Resolver) (mx : String) : Bool :=
  match (doQuery R mx QType.TLSA false).1 with
  | some resp => hasTLSA resp.Answer
  | none => false

/-! ## Basic facts about the helpers -/

@[simp] theorem except_bind_ok {ε α β : Type} (a : α) (f : α → Except ε β) :
    (Except.ok a >>= f) = f a := rfl

@[simp] theorem except_bind_error {ε α β : Type} (e : ε) (f : α → Except ε β) :
    (Except.error e >>= f) = Except.error e := rfl

theorem index_of_getElem? {α : Type} {xs : List α} {i : Nat} {x : α} (h : xs[i]? = some x) :
    index xs i = .ok x := by
  simp [index, h]

theorem index_of_lt {α : Type} (xs : List α) (i : Nat) (h : i < xs.length) :
    ∃ x, xs[i]? = some x ∧ index xs i = .ok x :=
  ⟨xs[i], List.getElem?_eq_getElem h, index_of_getElem? (List.getElem?_eq_getElem h)⟩

theorem index_of_le {α : Type} (xs : List α) (i : Nat) (h : xs.length ≤ i) :
    index xs i = .error (.indexOutOfRange i xs.length) := by
  simp [index, List.getElem?_eq_none h]

theorem splitChars_ne_nil (sep : Char) (cs : List Char) : splitChars sep cs ≠ [] := by
  cases cs with
  | nil => simp [splitChars]
  | cons c cs =>
    unfold splitChars
    split
    · simp
    · split <;> simp

/-- Joining the pieces with the separator gives the text back. -/
theorem splitChars_intercalate (sep : Char) (cs : List Char) :
    [sep].intercalate (splitChars sep cs) = cs := by
  induction cs with
  | nil => simp [splitChars, List.intercalate]
  | cons c cs ih =>
    unfold splitChars
    split
    · next h =>
      cases hs : splitChars sep cs with
      | nil => exact absurd hs (splitChars_ne_nil sep cs)
      | cons p ps =>
        rw [hs] at ih
        simp only [List.intercalate] at ih ⊢
        simp [List.intersperse, ih, h]
    · cases hs : splitChars sep cs with
      | nil => exact absurd hs (splitChars_ne_nil sep cs)
      | cons p ps =>
        rw [hs] at ih
        cases ps with
        | nil => simpa [List.intercalate, List.intersperse] using ih
        | cons q qs =>
          simp only [List.intercalate] at ih ⊢
          simp only [List.intersperse, List.flatten, List.cons_append] at ih ⊢
          simp at ih
          simp [ih]

/-- No piece contains the separator. -/
theorem splitChars_not_mem (sep : Char) (cs : List Char) :
    ∀ p ∈ splitChars sep cs, sep ∉ p := by
  induction cs with
  | nil => simp [splitChars]
  | cons c cs ih =>
    unfold splitChars
    split
    · intro p hp
      rcases List.mem_cons.1 hp with rfl | hp
      · simp
      · exact ih p hp
    · next h =>
      cases hs : splitChars sep cs with
      | nil => exact absurd hs (splitChars_ne_nil sep cs)
      | cons q qs =>
        rw [hs] at ih
        intro p hp
        rcases List.mem_cons.1 hp with rfl | hp
        · intro hmem
          rcases List.mem_cons.1 hmem with rfl | hmem
          · exact h rfl
          · exact ih q (List.mem_cons_self _ _) hmem
        · exact ih p (List.mem_cons_of_mem _ hp)

/-- There is one more piece than there are separators. -/
theorem splitChars_length (sep : Char) (cs : List Char) :
    (splitChars sep cs).length = cs.count sep + 1 := by
  induction cs with
  | nil => simp [splitChars]
  | cons c cs ih =>
    unfold splitChars
    split
    · next h => simp [ih, h]
    · next h =>
      cases hs : splitChars sep cs with
      | nil => exact absurd hs (splitChars_ne_nil sep cs)
      | cons q qs =>
        rw [hs] at ih
        have hne : (c == sep) = false := by simpa using h
        simp [List.count_cons, hne, ← ih]

theorem Split_length (s : String) (sep : Char) :
    (Split s sep).length = s.data.count sep + 1 := by
  simp [Split, splitChars_length]

theorem Split_length_pos (s : String) (sep : Char) : 0 < (Split s sep).length := by
  rw [Split_length]; omega

/-- The substring test decides the contiguous-sublist relation. -/
theorem containsChars_iff (sub s : List Char) : containsChars sub s = true ↔ sub <:+: s := by
  induction s with
  | nil => simp [containsChars, List.isEmpty_iff]
  | cons c cs ih =>
    simp only [containsChars, Bool.or_eq_true, ih, List.infix_cons_iff, List.isPrefixOf_iff_prefix]

/-- The key derivation never panics. -/
theorem getSecondLevel_total (H : String) : ∃ k, getSecondLevel H = .ok k := by
  unfold getSecondLevel
  by_cases h : (Split H '.').length < 3
  · exact ⟨H, by simp [h]⟩
  · obtain ⟨a, _, ha⟩ := index_of_lt (Split H '.') ((Split H '.').length - 3) (by omega)
    obtain ⟨b, _, hb⟩ := index_of_lt (Split H '.') ((Split H '.').length - 2) (by omega)
    exact ⟨a ++ "." ++ b, by simp [h, ha, hb]⟩

/-- A lookup that misses the cache and returns has started exactly one probe, for the hostname
it was given. -/
theorem getSMTPOptions_miss_probes (probe : Prober) (st st2 : State) (H key : String)
    (r : Bool × Bool × Bool × String)
    (hkey : getSecondLevel H = .ok key) (hmiss : st.serverMap key = none)
    (hret : getSMTPOptions probe st H = .ok (r, st2)) :
    st2.probes = st.probes ++ [H] := by
  simp only [getSMTPOptions, hkey, except_bind_ok, hmiss] at hret
  split at hret
  · cases hret; rfl
  · cases hret
  · next value waitErr _ =>
    cases h1 : index (Split value ',') 1 with
    | error e => simp [h1] at hret
    | ok r1 =>
      cases h2 : index (Split value ',') 2 with
      | error e => simp [h1, h2] at hret
      | ok r2 =>
        cases h3 : index (Split value ',') 3 with
        | error e => simp [h1, h2, h3] at hret
        | ok r3 =>
          cases h4 : index (Split value ',') 4 with
          | error e => simp [h1, h2, h3, h4] at hret
          | ok r4 =>
            simp only [h1, h2, h3, h4, except_bind_ok, Except.ok.injEq, Prod.mk.injEq] at hret
            rw [← hret.2]

/-- A lookup whose key is cached returns the stored entry and changes nothing. -/
theorem getSMTPOptions_of_found (probe : Prober) (st : State) (H key : String)
    (e : serverStatus) (hkey : getSecondLevel H = .ok key)
    (hfound : st.serverMap key = some e) :
    getSMTPOptions probe st H =
      .ok ((e.starttls, e.requiretls, e.blocked, e.tlsCert), st) := by
  simp [getSMTPOptions, hkey, hfound]

/-- A lookup that misses the cache and whose probe reports at least five fields. -/
theorem getSMTPOptions_of_done (probe : Prober) (st : State) (H key value : String)
    (waitErr : Option String) (f0 f1 f2 f3 f4 : String) (more : List String)
    (hkey : getSecondLevel H = .ok key) (hmiss : st.serverMap key = none)
    (hrun : probe st.probes.length H = .done value waitErr)
    (hsplit : Split value ',' = f0 :: f1 :: f2 :: f3 :: f4 :: more) :
    ∃ st1,
      getSMTPOptions probe st H =
        .ok ((decide (f1 = "1"), decide (f2 = "1"), decide (f3 = "1"), f4), st1) ∧
      st1.serverMap key =
        some { starttls := decide (f1 = "1"), requiretls := decide (f2 = "1"),
               blocked := decide (f3 = "1"), tlsCert := f4 } ∧
      (∀ k, k ≠ key → st1.serverMap k = st.serverMap k) ∧
      st1.probes = st.probes ++ [H] := by
  refine ⟨{ serverMap := st.serverMap.insert key
              { starttls := decide (f1 = "1"), requiretls := decide (f2 = "1"),
                blocked := decide (f3 = "1"), tlsCert := f4 },
            probes := st.probes ++ [H] }, ?_, ?_, ?_, rfl⟩
  · simp [getSMTPOptions, hkey, hmiss, hrun, hsplit, index]
  · simp [ServerMap.insert]
  · intro k hk
    simp [ServerMap.insert, hk]

theorem getMXListLoop_eq (answers : List RR) (acc : List String) :
    getMXListLoop answers acc = acc ++ answers.filterMap mxHost := by
  induction answers generalizing acc with
  | nil => simp [getMXListLoop]
  | cons rr rest ih =>
    cases rr <;> simp [getMXListLoop, mxHost, ih]

/-- What `getMXList` returns in each case of the query outcome. -/
theorem getMXList_cases (R : Resolver) (qname : String) :
    ((doQuery R qname QType.MX false).2 ≠ none ∨ (doQuery R qname QType.MX false).1 = none →
      getMXList R qname = ["null"]) ∧
    ∀ answers, doQuery R qname QType.MX false = (some ⟨answers⟩, none) →
      (answers = [] → getMXList R qname = ["none"]) ∧
      (answers ≠ [] → getMXList R qname = answers.filterMap mxHost) := by
  constructor
  · intro h
    unfold getMXList
    rcases hq : doQuery R qname QType.MX false with ⟨resp, err⟩
    rw [hq] at h
    rcases h with h | h
    · cases err with
      | none => exact absurd rfl h
      | some e => simp
    · simp only at h
      subst h
      simp
  · intro answers hq
    constructor
    · intro h
      simp [getMXList, hq, h]
    · intro h
      simp [getMXList, hq, h, getMXListLoop_eq]

theorem daneAnswers_eq (dane : Bool) (answers : List RR) :
    daneAnswers dane answers = (dane || hasTLSA answers) := by
  induction answers generalizing dane with
  | nil => simp [daneAnswers, hasTLSA]
  | cons rr rest ih =>
    cases rr <;> simp [daneAnswers, hasTLSA, ih]

/-- The DANE loop only ever raises the flag: its result is the starting value or-ed with
"some mail exchange has a TLSA answer". -/
theorem daneLoop_ok (R : Resolver) (dane b : Bool) (mxs : List String)
    (h : daneLoop R dane mxs = .ok b) :
    b = (dane || mxs.any (mxHasTLSA R)) := by
  induction mxs generalizing dane with
  | nil =>
    simp only [daneLoop, Except.ok.injEq] at h
    simp [h]
  | cons mx rest ih =>
    unfold daneLoop at h
    rcases hq : doQuery R mx QType.TLSA false with ⟨resp, err⟩
    rw [hq] at h
    cases resp with
    | none =>
      have hmx : mxHasTLSA R mx = false := by simp [mxHasTLSA, hq]
      cases err with
      | none => simp at h
      | some e =>
        simp only at h
        rw [ih dane h]
        simp [hmx]
    | some r =>
      have hmx : mxHasTLSA R mx = hasTLSA r.Answer := by simp [mxHasTLSA, hq]
      simp only at h
      by_cases hlen : r.Answer.length > 0
      · rw [if_pos hlen] at h
        rw [ih _ h, daneAnswers_eq]
        simp [hmx, Bool.or_assoc]
      · rw [if_neg hlen] at h
        have hnil : r.Answer = [] := by
          cases hA : r.Answer with
          | nil => rfl
          | cons a as => simp [hA] at hlen
        rw [ih _ h]
        simp [hmx, hnil, hasTLSA]

/-! ## The claims -/

/-- C1. Cache hit: when the key of `H` is present in `serverMap`, `getSMTPOptions H` returns
the stored `(starttls, requiretls, blocked, tlsCert)`, starts no probe, and leaves the state
(cache and probe log) exactly as it was. -/
theorem getSMTPOptions_cache_hit (probe : Prober) (st : State) (H key : String)
    (e : serverStatus) (hkey : getSecondLevel H = .ok key)
    (hfound : st.serverMap key = some e) :
    getSMTPOptions probe st H =
      .ok ((e.starttls, e.requiretls, e.blocked, e.tlsCert), st) :=
  getSMTPOptions_of_found probe st H key e hkey hfound

/-- C1 at a concrete cache: `relay2.mailprovider.com.` hits the entry of `mailprovider.com`. -/
theorem getSMTPOptions_cache_hit_witness :
    getSecondLevel "relay2.mailprovider.com." = .ok "mailprovider.com" ∧
    cachedState.serverMap "mailprovider.com" = some ⟨true, false, false, "SHA256:abcd"⟩ ∧
    getSMTPOptions hangingProbe cachedState "relay2.mailprovider.com." =
      .ok ((true, false, false, "SHA256:abcd"), cachedState) :=
  ⟨by decide, by decide,
    getSMTPOptions_cache_hit hangingProbe cachedState "relay2.mailprovider.com."
      "mailprovider.com" ⟨true, false, false, "SHA256:abcd"⟩ (by decide) (by decide)⟩

/-- C2, as the claim states it, fails: after a probe of `smtp.mailprovider.com.` that times
out on an empty cache, the call returns the all-false defaults but the cache has no entry
under the key `mailprovider.com`, and the following lookup of `relay2.mailprovider.com.` (same
key) starts a second probe. -/
theorem getSMTPOptions_timeout_not_cached :
    getSecondLevel "smtp.mailprovider.com." = .ok "mailprovider.com" ∧
    getSecondLevel "relay2.mailprovider.com." = .ok "mailprovider.com" ∧
    ∃ st1 st2,
      getSMTPOptions hangingProbe State.init "smtp.mailprovider.com." =
        .ok ((false, false, false, ""), st1) ∧
      st1.serverMap "mailprovider.com" = none ∧
      getSMTPOptions hangingProbe st1 "relay2.mailprovider.com." =
        .ok ((false, false, false, ""), st2) ∧
      st2.probes = ["smtp.mailprovider.com.", "relay2.mailprovider.com."] :=
  ⟨by decide, by decide, _, _, rfl, rfl, rfl, rfl⟩

/-- C2, amended. Timeout on a cache miss: `getSMTPOptions H` returns `(false, false, false, "")`
and leaves the cache unchanged (nothing is stored under the key of `H`); a following lookup of
any hostname with the same key is therefore again a miss, and whenever it returns it has
started a further probe. -/
theorem getSMTPOptions_timeout (probe : Prober) (st : State) (H key : String)
    (hkey : getSecondLevel H = .ok key) (hmiss : st.serverMap key = none)
    (hrun : probe st.probes.length H = .timeout) :
    getSMTPOptions probe st H =
      .ok ((false, false, false, ""), { st with probes := st.probes ++ [H] }) ∧
    ∀ (H2 : String) (r : Bool × Bool × Bool × String) (st2 : State),
      getSecondLevel H2 = .ok key →
      getSMTPOptions probe { st with probes := st.probes ++ [H] } H2 = .ok (r, st2) →
      st2.probes = st.probes ++ [H, H2] := by
  refine ⟨by simp [getSMTPOptions, hkey, hmiss, hrun], ?_⟩
  intro H2 r st2 hkey2 hret
  have h := getSMTPOptions_miss_probes probe { st with probes := st.probes ++ [H] } st2 H2 key r
    hkey2 hmiss hret
  simpa using h

/-- The amended C2 at a concrete input: a hanging probe of `smtp.mailprovider.com.` on the
empty cache. -/
theorem getSMTPOptions_timeout_witness :
    getSMTPOptions hangingProbe State.init "smtp.mailprovider.com." =
      .ok ((false, false, false, ""),
        { State.init with probes := State.init.probes ++ ["smtp.mailprovider.com."] }) :=
  (getSMTPOptions_timeout hangingProbe State.init "smtp.mailprovider.com." "mailprovider.com"
    (by decide) rfl rfl).1

/-- C3. Normal completion on a cache miss: if the captured output splits on `,` into
`f0, f1, f2, f3, f4` (and possibly more fields), `getSMTPOptions H` returns
`(f1 == "1", f2 == "1", f3 == "1", f4)`; afterwards the cache maps the key of `H` to exactly
that four-tuple, every other key is unchanged, and one probe (for `H`) has been started. -/
theorem getSMTPOptions_completion (probe : Prober) (st : State) (H key value : String)
    (waitErr : Option String) (f0 f1 f2 f3 f4 : String) (more : List String)
    (hkey : getSecondLevel H = .ok key) (hmiss : st.serverMap key = none)
    (hrun : probe st.probes.length H = .done value waitErr)
    (hsplit : Split value ',' = f0 :: f1 :: f2 :: f3 :: f4 :: more) :
    ∃ st1,
      getSMTPOptions probe st H =
        .ok ((decide (f1 = "1"), decide (f2 = "1"), decide (f3 = "1"), f4), st1) ∧
      st1.serverMap key =
        some { starttls := decide (f1 = "1"), requiretls := decide (f2 = "1"),
               blocked := decide (f3 = "1"), tlsCert := f4 } ∧
      (∀ k, k ≠ key → st1.serverMap k = st.serverMap k) ∧
      st1.probes = st.probes ++ [H] :=
  getSMTPOptions_of_done probe st H key value waitErr f0 f1 f2 f3 f4 more hkey hmiss hrun hsplit

/-- C3 at the output `x,1,0,0,SHA256:abcd`: the result is `(true, false, false, "SHA256:abcd")`. -/
theorem getSMTPOptions_completion_witness :
    Split "x,1,0,0,SHA256:abcd" ',' = ["x", "1", "0", "0", "SHA256:abcd"] ∧
    ∃ st1,
      getSMTPOptions scenarioProbe State.init "smtp.mailprovider.com." =
        .ok ((true, false, false, "SHA256:abcd"), st1) ∧
      st1.serverMap "mailprovider.com" =
        some { starttls := true, requiretls := false, blocked := false,
               tlsCert := "SHA256:abcd" } ∧
      (∀ k, k ≠ "mailprovider.com" → st1.serverMap k = State.init.serverMap k) ∧
      st1.probes = State.init.probes ++ ["smtp.mailprovider.com."] :=
  ⟨by decide,
    getSMTPOptions_completion scenarioProbe State.init "smtp.mailprovider.com."
      "mailprovider.com" "x,1,0,0,SHA256:abcd" none "x" "1" "0" "0" "SHA256:abcd" []
      (by decide) rfl rfl (by decide)⟩

/-- C4 (lenient parsing) fails on the code: with an empty captured output, or with the
two-field output `x,1`, the completion path indexes `retLine` out of range and panics; no
result is returned and no cache entry is written. -/
theorem getSMTPOptions_short_output_panics :
    getSMTPOptions (fun _ _ => .done "" none) State.init "smtp.mailprovider.com." =
      .error (.indexOutOfRange 1 1) ∧
    getSMTPOptions (fun _ _ => .done "x,1" none) State.init "smtp.mailprovider.com." =
      .error (.indexOutOfRange 2 2) :=
  ⟨rfl, rfl⟩

/-- C5, as the claim states it, fails: the keys of `smtp.mailprovider.com` and
`relay2.mailprovider.com` (no trailing dot) are `smtp.mailprovider` and `relay2.mailprovider`,
not `mailprovider.com`; so after the first probe the second lookup misses the cache and starts
a second probe. -/
theorem scenarioC_unqualified_names_probe_twice :
    getSecondLevel "smtp.mailprovider.com" = .ok "smtp.mailprovider" ∧
    getSecondLevel "relay2.mailprovider.com" = .ok "relay2.mailprovider" ∧
    ∃ st1 st2,
      getSMTPOptions scenarioProbe State.init "smtp.mailprovider.com" =
        .ok ((true, false, false, "SHA256:abcd"), st1) ∧
      getSMTPOptions scenarioProbe st1 "relay2.mailprovider.com" =
        .ok ((false, false, false, ""), st2) ∧
      st2.probes = ["smtp.mailprovider.com", "relay2.mailprovider.com"] :=
  ⟨by decide, by decide, _, _, rfl, rfl, rfl⟩

/-- C5, amended. Scenario C with fully-qualified hostnames, as the MX records deliver them:
starting from an empty cache, after `getSMTPOptions "smtp.mailprovider.com."` completes with
probe output `x,1,0,0,SHA256:abcd`, a later `getSMTPOptions "relay2.mailprovider.com."`
returns `(true, false, false, "SHA256:abcd")` and starts no probe, because both hostnames have
the key `mailprovider.com`. -/
theorem scenarioC_qualified_names (probe : Prober) (waitErr : Option String)
    (hrun : probe 0 "smtp.mailprovider.com." = .done "x,1,0,0,SHA256:abcd" waitErr) :
    getSecondLevel "smtp.mailprovider.com." = .ok "mailprovider.com" ∧
    getSecondLevel "relay2.mailprovider.com." = .ok "mailprovider.com" ∧
    ∃ st1,
      getSMTPOptions probe State.init "smtp.mailprovider.com." =
        .ok ((true, false, false, "SHA256:abcd"), st1) ∧
      st1.probes = ["smtp.mailprovider.com."] ∧
      getSMTPOptions probe st1 "relay2.mailprovider.com." =
        .ok ((true, false, false, "SHA256:abcd"), st1) := by
  have hk1 : getSecondLevel "smtp.mailprovider.com." = .ok "mailprovider.com" := by decide
  have hk2 : getSecondLevel "relay2.mailprovider.com." = .ok "mailprovider.com" := by decide
  obtain ⟨st1, hret, hentry, _, hprobes⟩ :=
    getSMTPOptions_of_done probe State.init "smtp.mailprovider.com." "mailprovider.com"
      "x,1,0,0,SHA256:abcd" waitErr "x" "1" "0" "0" "SHA256:abcd" [] hk1 rfl hrun (by decide)
  refine ⟨hk1, hk2, st1, ?_, ?_, ?_⟩
  · simpa using hret
  · simpa [State.init] using hprobes
  · have h := getSMTPOptions_of_found probe st1 "relay2.mailprovider.com." "mailprovider.com"
      _ hk2 hentry
    simpa using h

/-- The amended C5 for a probe executable whose first run prints the record of scenario C. -/
theorem scenarioC_qualified_names_witness :
    scenarioProbe 0 "smtp.mailprovider.com." = .done "x,1,0,0,SHA256:abcd" none ∧
    ∃ st1,
      getSMTPOptions scenarioProbe State.init "smtp.mailprovider.com." =
        .ok ((true, false, false, "SHA256:abcd"), st1) ∧
      st1.probes = ["smtp.mailprovider.com."] ∧
      getSMTPOptions scenarioProbe st1 "relay2.mailprovider.com." =
        .ok ((true, false, false, "SHA256:abcd"), st1) :=
  ⟨rfl, (scenarioC_qualified_names scenarioProbe none rfl).2.2⟩

/-- C6. Key derivation: with `p` the dot-separated labels of `H` and `n` their number, either
`n < 3` and `getSecondLevel H = H`, or `3 ≤ n`, both `p[n-3]` and `p[n-2]` exist and
`getSecondLevel H = p[n-3] ++ "." ++ p[n-2]`.  In both cases the function returns a key: it
never indexes out of range.  (It reads nothing but `H`, so the key is a function of `H`.) -/
theorem getSecondLevel_spec (H : String) :
    (∃ k, getSecondLevel H = .ok k) ∧
    (((Split H '.').length < 3 ∧ getSecondLevel H = .ok H) ∨
     (3 ≤ (Split H '.').length ∧
      ∃ a b, (Split H '.')[(Split H '.').length - 3]? = some a ∧
             (Split H '.')[(Split H '.').length - 2]? = some b ∧
             getSecondLevel H = .ok (a ++ "." ++ b))) := by
  refine ⟨getSecondLevel_total H, ?_⟩
  by_cases h : (Split H '.').length < 3
  · exact Or.inl ⟨h, by simp [getSecondLevel, h]⟩
  · obtain ⟨a, ha, ha2⟩ := index_of_lt (Split H '.') ((Split H '.').length - 3) (by omega)
    obtain ⟨b, hb, hb2⟩ := index_of_lt (Split H '.') ((Split H '.').length - 2) (by omega)
    exact Or.inr ⟨by omega, a, b, ha, hb, by simp [getSecondLevel, h, ha2, hb2]⟩

theorem getPolicyLoop_eq (m : String) (answers : List RR) :
    getPolicyLoop m answers = (firstMatch m answers).getD "none" := by
  induction answers with
  | nil => rfl
  | cons rr rest ih =>
    cases rr with
    | TXT txt =>
      by_cases h : Contains (Join txt " ") m = true
      · simp [getPolicyLoop, firstMatch, txtStrings, joinedText, h]
      · simp only [firstMatch, txtStrings] at ih
        simp [getPolicyLoop, firstMatch, txtStrings, joinedText, h, ih]
    | MX pref mx => simpa [getPolicyLoop, firstMatch, txtStrings, joinedText] using ih
    | TLSA u sel mt cert => simpa [getPolicyLoop, firstMatch, txtStrings, joinedText] using ih
    | other t => simpa [getPolicyLoop, firstMatch, txtStrings, joinedText] using ih

theorem getPolicy_of_answers (R : Resolver) (qname m : String) (answers : List RR)
    (h : doQuery R qname QType.TXT false = (some ⟨answers⟩, none)) :
    getPolicy R qname m = (firstMatch m answers).getD "none" := by
  simp [getPolicy, h, getPolicyLoop_eq]

/-- C7, as the claim states it, fails: for the answer section holding the single TXT record
`none` and the marker `no`, a TXT answer contains the marker, yet `getPolicy` returns "none". -/
theorem getPolicy_none_despite_match :
    doQuery noneTxtResolver "example.gov." QType.TXT false =
      (some ⟨[RR.TXT ["none"]]⟩, none) ∧
    Contains (Join ["none"] " ") "no" = true ∧
    getPolicy noneTxtResolver "example.gov." "no" = "none" := by
  decide

/-- C7, amended. When the query fails or yields no response, `getPolicy` returns "none".  On a
response with answer section `answers`, `getPolicy` returns the space-joined text of the first
TXT answer, in answer order, whose joined string contains the marker `m` (non-TXT answers are
skipped), and "none" when there is no such answer.  Hence it returns "none" exactly when no
TXT answer's joined string contains `m` or the first one that does is itself the string
"none"; for a marker that does not occur in "none" (such as the four markers `main` uses) it
returns "none" exactly when no TXT answer's joined string contains `m`. -/
theorem getPolicy_spec (R : Resolver) (qname m : String) :
    ((doQuery R qname QType.TXT false).2 ≠ none ∨ (doQuery R qname QType.TXT false).1 = none →
      getPolicy R qname m = "none") ∧
    ∀ answers, doQuery R qname QType.TXT false = (some ⟨answers⟩, none) →
      getPolicy R qname m = (firstMatch m answers).getD "none" ∧
      (getPolicy R qname m = "none" ↔
        (∀ s ∈ txtStrings answers, Contains s m = false) ∨
        firstMatch m answers = some "none") ∧
      (Contains "none" m = false →
        (getPolicy R qname m = "none" ↔ ∀ s ∈ txtStrings answers, Contains s m = false)) := by
  constructor
  · intro h
    unfold getPolicy
    rcases hq : doQuery R qname QType.TXT false with ⟨resp, err⟩
    rw [hq] at h
    rcases h with h | h
    · cases err with
      | none => exact absurd rfl h
      | some e => simp
    · simp only at h
      subst h
      simp
  · intro answers hq
    have heq := getPolicy_of_answers R qname m answers hq
    have hiff : getPolicy R qname m = "none" ↔
        (∀ s ∈ txtStrings answers, Contains s m = false) ∨
        firstMatch m answers = some "none" := by
      rw [heq]
      cases hf : firstMatch m answers with
      | none =>
        have hn := hf
        simp only [firstMatch, List.find?_eq_none] at hn
        simp only [Option.getD_none, true_iff]
        left
        intro s hs
        simpa using hn s hs
      | some s =>
        have hmem := List.mem_of_find?_eq_some hf
        have hc := List.find?_some hf
        simp only [Option.getD_some, Option.some.injEq]
        constructor
        · intro h; exact Or.inr h
        · rintro (h | h)
          · have := h s hmem
            simp [this] at hc
          · exact h
    refine ⟨heq, hiff, ?_⟩
    intro hnone
    rw [hiff]
    constructor
    · rintro (h | h)
      · exact h
      · have hc := List.find?_some h
        simp [hnone] at hc
    · intro h; exact Or.inl h

/-- The amended C7 at a concrete zone: the SPF record is returned whole, both segments
joined by a space, and the records before it are skipped. -/
theorem getPolicy_spec_witness :
    doQuery spfResolver "example.gov." QType.TXT false =
      (some ⟨[RR.other 5, RR.TXT ["site-verification=abc"],
              RR.TXT ["v=spf1 include:_spf.example.gov", "-all"], RR.TXT ["v=spf1 -all"]]⟩,
        none) ∧
    getPolicy spfResolver "example.gov." "v=spf1" = "v=spf1 include:_spf.example.gov -all" := by
  refine ⟨by decide, ?_⟩
  rw [((getPolicy_spec spfResolver "example.gov." "v=spf1").2 _ rfl).1]
  decide

/-- C8 fails on the code: when the MX query succeeds with a non-empty answer section that
holds no MX record (here, only the CNAME of an alias), `getMXList` returns the empty list, not
`["none"]`; `main` then evaluates `zoneData.Mx[0]` and panics. -/
theorem getMXList_empty_on_alias :
    doQuery aliasResolver "alias.example.gov." QType.MX false = (some ⟨[RR.other 5]⟩, none) ∧
    getMXList aliasResolver "alias.example.gov." = [] ∧
    mainLoopBody aliasEnv State.init "alias.example.gov,x,Example Agency" =
      .error (.indexOutOfRange 0 0) :=
  ⟨by decide, by decide, rfl⟩

/-- C9 fails on the code: `example.gov.` has one mail exchange and no TLSA record in this run,
but the store holds a prior record with `Dane = true`; the record written for this run still
has `Dane = true`.  With an empty store the same run writes `Dane = false`. -/
theorem mainLoopBody_keeps_stale_dane :
    getMXList staleDaneEnv.resolver "example.gov." = ["mail.example.gov."] ∧
    mxHasTLSA staleDaneEnv.resolver "mail.example.gov." = false ∧
    (staleDaneEnv.find "example.gov.").map (fun r => r.Dane) = some true ∧
    (∃ res, mainLoopBody staleDaneEnv State.init "example.gov,x,Example Agency" = .ok res ∧
      res.isNew = false ∧ res.written.Mx = ["mail.example.gov."] ∧
      res.written.Dane = true) ∧
    (∃ res, mainLoopBody freshDaneEnv State.init "example.gov,x,Example Agency" = .ok res ∧
      res.isNew = true ∧ res.written.Mx = ["mail.example.gov."] ∧
      res.written.Dane = false) :=
  ⟨by decide, by decide, by decide, ⟨_, rfl, rfl, rfl, rfl⟩, ⟨_, rfl, rfl, rfl, rfl⟩⟩

/-- C10 fails on the code: with full test on and a failing MX query, the MX list is the
sentinel `["null"]`, and `main` still calls `getSMTPOptions` with the hostname `null`, which
starts the probe executable for it. -/
theorem mainLoopBody_probes_null :
    failingDnsEnv.fulltest = "yes" ∧
    getMXList failingDnsEnv.resolver "example.gov." = ["null"] ∧
    ∃ res, mainLoopBody failingDnsEnv State.init "example.gov,x,Example Agency" = .ok res ∧
      res.written.Mx = ["null"] ∧ res.state.probes = ["null"] :=
  ⟨by decide, by decide, _, rfl, rfl, rfl⟩

end EmailMonitor
